import Mathlib

/-!
Shallow embedding of the Metamorphosis Engine
(`src/internal/metamorphosis/system.go`, package `metamorphosis`).

Float64 quantities of the source (budget, cost, priority, intensity,
progress) are modelled as exact rationals `ℚ`; the spatial falloff
computation, which uses `math.Exp`, is modelled over the reals `ℝ` in a
separate section. `time.Duration` values are rationals counting
nanoseconds, as in Go. Go maps keyed by strings are modelled as lists with
most-recent-insertion-first lookup; wall-clock timestamps (`time.Now`),
the ECS entity store, the history log and the per-effect callbacks are
outside the state model: no claim under proof reads them.
-/

namespace EchoTaiga

/-- `time.Duration.Hours()`: nanoseconds divided by 3.6e12. -/
def durationHours (d : ℚ) : ℚ := d / 3600000000000

/-- Go `int(x)` on a float64 truncates toward zero; on an exact rational
that is `num / den` with `Int` division (which rounds toward zero). -/
def ratTrunc (q : ℚ) : ℤ := q.num / (q.den : ℤ)

/-- `containsString` (system.go:2029). -/
def containsString (slice : List String) (str : String) : Bool :=
  slice.any (fun s => s = str)

/-- `MetamorphEffect` (system.go:28) restricted to the fields the budget
and scheduling logic reads; callbacks and display fields are omitted. -/
structure MetamorphEffect where
  id : String
  order : ℕ
  category : String
  /-- `Duration time.Duration`, in nanoseconds; 0 = permanent. -/
  duration : ℚ
  intensity : ℚ
deriving DecidableEq, Repr

/-- `MetamorphTrigger` (system.go:65) restricted to the fields the
scheduler reads: `Priority` and `Conditions["min_phase"]` (a JSON number,
hence a float64 in Go, `none` when the key is absent or not a number).
The `Check` predicate closes over the ECS world and wall-clock time, so
the scheduler model takes its per-tick outcome as a parameter. -/
structure MetamorphTrigger where
  id : String
  priority : ℚ
  minPhaseCond : Option ℚ
deriving DecidableEq, Repr

/-- `PlayerAction` (system.go:106) restricted to the fields engine state
updates touch (the timestamp is wall-clock and omitted). -/
structure PlayerAction where
  actionType : String
  value : ℚ
deriving DecidableEq, Repr

/-- `WorldState` (system.go:88): the manager-held accumulators the claims
read. `ActiveEffects`, `TimeOfDay`, player position/health/sanity and the
death timestamp are refreshed from live queries or wall-clock time and are
not read by any operation modelled here. -/
structure WorldState where
  transformationPhase : ℤ
  anomalyLevel : ℚ
  recentPlayerActions : List PlayerAction
  discoveredSymbols : List String
  completedRituals : List String
  localAnomalyLevels : List (String × ℚ)
  weather : String
  cycles : ℤ
deriving DecidableEq, Repr

/-- `orderThresholds map[OrderLevel]float64` (system.go:139): the map is
created with exactly the keys 1–5 and no key is ever added or removed, so
it is modelled as five fields. -/
structure OrderThresholds where
  first : ℚ
  second : ℚ
  third : ℚ
  fourth : ℚ
  fifth : ℚ
deriving DecidableEq, Repr

/-- Lookup in the `orderThresholds` map: `none` models a missing key. -/
def OrderThresholds.get (t : OrderThresholds) : ℕ → Option ℚ
  | 1 => some t.first
  | 2 => some t.second
  | 3 => some t.third
  | 4 => some t.fourth
  | 5 => some t.fifth
  | _ => none

/-- `MetamorphosisManager` (system.go:117): the engine state. Template
catalogs, the mutex, the save path and the history log are omitted;
`activeEffects` is the map keyed by `MetamorphEffect.id`. -/
structure Manager where
  activeEffects : List MetamorphEffect
  availableTriggers : List MetamorphTrigger
  anomalyBudget : ℚ
  maxBudget : ℚ
  regenerationRate : ℚ
  transformationPhase : ℤ
  orderThresholds : OrderThresholds
  worldState : WorldState
deriving DecidableEq, Repr

/-- The state built by `NewMetamorphosisManager` (system.go:161). -/
def initialManager : Manager where
  activeEffects := []
  availableTriggers := []
  anomalyBudget := 100
  maxBudget := 100
  regenerationRate := 0.5
  transformationPhase := 1
  orderThresholds := ⟨0, 0.25, 0.5, 0.75, 0.9⟩
  worldState :=
    { transformationPhase := 1
      anomalyLevel := 0
      recentPlayerActions := []
      discoveredSymbols := []
      completedRituals := []
      localAnomalyLevels := []
      weather := "clear"
      cycles := 0 }

/-- `getEffectCost` (system.go:1876). -/
def getEffectCost (effect : MetamorphEffect) : ℚ :=
  let baseCost : ℚ := (effect.order : ℚ) * 10
  let cost := baseCost * effect.intensity
  if effect.duration = 0 then
    cost * 1.5
  else
    cost * (1 + durationHours effect.duration / 10)

/-- `canAffordEffect` (system.go:1896): `mm.anomalyBudget >= cost`. -/
def canAffordEffect (mm : Manager) (effect : MetamorphEffect) : Bool :=
  getEffectCost effect ≤ mm.anomalyBudget

/-- `updateAnomalyBudget` (system.go:443). -/
def updateAnomalyBudget (deltaTime : ℚ) (mm : Manager) : Manager :=
  let deltaMinutes := deltaTime / 60
  let regenerationAmount := mm.regenerationRate * deltaMinutes
  { mm with anomalyBudget := min mm.maxBudget (mm.anomalyBudget + regenerationAmount) }

/-- `getTransformationProgress` (system.go:1917). -/
def getTransformationProgress (mm : Manager) : ℚ :=
  let symbolProgress : ℚ :=
    if mm.worldState.discoveredSymbols.length > 0 then
      min 1 ((mm.worldState.discoveredSymbols.length : ℚ) / 20)
    else 0
  let ritualProgress : ℚ :=
    if mm.worldState.completedRituals.length > 0 then
      min 1 ((mm.worldState.completedRituals.length : ℚ) / 10)
    else 0
  let cycleProgress : ℚ :=
    if mm.worldState.cycles > 0 then
      min 1 ((mm.worldState.cycles : ℚ) / 5)
    else 0
  let anomalyProgress := mm.worldState.anomalyLevel
  symbolProgress * 0.3 + ritualProgress * 0.3 + cycleProgress * 0.2 + anomalyProgress * 0.2

/-- `isOrderAllowed` (system.go:1902): a missing key yields `false`,
otherwise `progress >= threshold`. -/
def isOrderAllowed (mm : Manager) (order : ℕ) : Bool :=
  match mm.orderThresholds.get order with
  | none => false
  | some threshold => decide (threshold ≤ getTransformationProgress mm)

/-- `SetTransformationPhase` (system.go:863): sets the phase
unconditionally and zeroes the thresholds of every order the phase has
reached. -/
def SetTransformationPhase (phase : ℤ) (mm : Manager) : Manager :=
  let mm := { mm with
    transformationPhase := phase
    worldState.transformationPhase := phase }
  let th := mm.orderThresholds
  let th := if phase ≥ 2 then { th with second := 0 } else th
  let th := if phase ≥ 3 then { th with third := 0 } else th
  let th := if phase ≥ 4 then { th with fourth := 0 } else th
  let th := if phase ≥ 5 then { th with fifth := 0 } else th
  { mm with orderThresholds := th }

/-- `checkTransformationPhaseProgress` (system.go:1951): advances the
phase (never lowers it) when the progress score crosses a gate. -/
def checkTransformationPhaseProgress (mm : Manager) : Manager :=
  let progress := getTransformationProgress mm
  let newPhase : ℤ :=
    if progress ≥ 0.9 ∧ mm.transformationPhase < 5 then 5
    else if progress ≥ 0.7 ∧ mm.transformationPhase < 4 then 4
    else if progress ≥ 0.5 ∧ mm.transformationPhase < 3 then 3
    else if progress ≥ 0.25 ∧ mm.transformationPhase < 2 then 2
    else mm.transformationPhase
  if newPhase > mm.transformationPhase then SetTransformationPhase newPhase mm
  else mm

/-- Insertion into the `activeEffects` map, keyed by `id`
(`mm.activeEffects[effect.ID] = effect`). -/
def insertEffect (effect : MetamorphEffect) (l : List MetamorphEffect) :
    List MetamorphEffect :=
  effect :: l.filter (fun e => e.id ≠ effect.id)

/-- `applyMetamorphEffect` (system.go:619): registers the effect, debits
the ledger by its full cost (no clamping — the scheduler's
`canAffordEffect` guard is the only protection), then rechecks the phase.
The per-entity application and history entries touch only ECS state. -/
def applyMetamorphEffect (effect : MetamorphEffect) (mm : Manager) : Manager :=
  let mm := { mm with
    activeEffects := insertEffect effect mm.activeEffects
    anomalyBudget := mm.anomalyBudget - getEffectCost effect }
  checkTransformationPhaseProgress mm

/-- `removeMetamorphEffect` (system.go:669): a no-op on an unknown id;
otherwise deletes the effect and credits back half its cost, clamped at
`maxBudget`. -/
def removeMetamorphEffect (effectID : String) (mm : Manager) : Manager :=
  match mm.activeEffects.find? (fun e => e.id = effectID) with
  | none => mm
  | some effect =>
      { mm with
        activeEffects := mm.activeEffects.filter (fun e => e.id ≠ effectID)
        anomalyBudget :=
          min mm.maxBudget (mm.anomalyBudget + getEffectCost effect * 0.5) }

/-- `AddPlayerAction` (system.go:748): appends, then drops the oldest
entry past 100. -/
def AddPlayerAction (action : PlayerAction) (mm : Manager) : Manager :=
  let actions := mm.worldState.recentPlayerActions ++ [action]
  let actions := if actions.length > 100 then actions.drop 1 else actions
  { mm with worldState.recentPlayerActions := actions }

/-- `AddDiscoveredSymbol` (system.go:762): early return on a known
symbol; otherwise append and recheck the phase. -/
def AddDiscoveredSymbol (symbolID : String) (mm : Manager) : Manager :=
  if containsString mm.worldState.discoveredSymbols symbolID then mm
  else
    checkTransformationPhaseProgress
      { mm with worldState.discoveredSymbols :=
          mm.worldState.discoveredSymbols ++ [symbolID] }

/-- `AddCompletedRitual` (system.go:779): early return on a known ritual;
otherwise append and recheck the phase. -/
def AddCompletedRitual (ritualID : String) (mm : Manager) : Manager :=
  if containsString mm.worldState.completedRituals ritualID then mm
  else
    checkTransformationPhaseProgress
      { mm with worldState.completedRituals :=
          mm.worldState.completedRituals ++ [ritualID] }

/-- Go map assignment `m[k] = v` on the local-anomaly map. -/
def setAssoc (l : List (String × ℚ)) (k : String) (v : ℚ) : List (String × ℚ) :=
  (k, v) :: l.filter (fun p => p.1 ≠ k)

/-- `updateGlobalAnomalyLevel` (system.go:1979). -/
def updateGlobalAnomalyLevel (mm : Manager) : Manager :=
  let totalLevel : ℚ :=
    (mm.worldState.localAnomalyLevels.map (fun p => p.2)).sum
      + (mm.activeEffects.map (fun e => e.intensity * 0.2)).sum
  let count : ℕ := mm.worldState.localAnomalyLevels.length + mm.activeEffects.length
  if count > 0 then
    { mm with worldState.anomalyLevel := min 1 (totalLevel / (count : ℚ)) }
  else
    { mm with worldState.anomalyLevel := 0 }

/-- `SetLocalAnomalyLevel` (system.go:796). -/
def SetLocalAnomalyLevel (areaID : String) (level : ℚ) (mm : Manager) : Manager :=
  updateGlobalAnomalyLevel
    { mm with worldState.localAnomalyLevels :=
        setAssoc mm.worldState.localAnomalyLevels areaID level }

/-- `SetWeather` (system.go:807). -/
def SetWeather (weather : String) (mm : Manager) : Manager :=
  { mm with worldState.weather := weather }

/-- `RecordPlayerDeath` (system.go:815): counts the rebirth, raises the
maximum budget by 25, refills the ledger, rechecks the phase (the death
timestamp is wall-clock and omitted). -/
def RecordPlayerDeath (mm : Manager) : Manager :=
  let mm := { mm with
    worldState.cycles := mm.worldState.cycles + 1
    maxBudget := mm.maxBudget + 25 }
  let mm := { mm with anomalyBudget := mm.maxBudget }
  checkTransformationPhaseProgress mm

/-- `getEffectOrderForTrigger` (system.go:1853): the declared minimum
phase (`Conditions["min_phase"]`, defaulting to 1) and the priority
jointly pick the target order, highest case first. -/
def getEffectOrderForTrigger (trigger : MetamorphTrigger) : ℕ :=
  let minPhase : ℤ :=
    match trigger.minPhaseCond with
    | some phase => ratTrunc phase
    | none => 1
  if 5 ≤ minPhase ∨ (0.95 : ℚ) ≤ trigger.priority then 5
  else if 4 ≤ minPhase ∨ (0.85 : ℚ) ≤ trigger.priority then 4
  else if 3 ≤ minPhase ∨ (0.75 : ℚ) ≤ trigger.priority then 3
  else if 2 ≤ minPhase ∨ (0.6 : ℚ) ≤ trigger.priority then 2
  else 1

/-- The comparison `checkTriggers` sorts with (system.go:501): descending
priority. `sort.Slice` leaves the order of equal priorities unspecified;
a stable merge sort is one admissible refinement of it. -/
def triggerSortLE (a b : MetamorphTrigger) : Bool := b.priority ≤ a.priority

/-- The candidate loop of `checkTriggers` (system.go:506): skip a trigger
whose order the gate refuses, skip a trigger with no template of that
order (`selectEffectForTrigger` returned nil), skip an unaffordable
instantiation, and stop on the first candidate passing all three checks.
`select` stands for `selectEffectForTrigger`, whose template choice is
randomized in the source. -/
def scanTriggers (mm : Manager) (select : MetamorphTrigger → Option MetamorphEffect) :
    List MetamorphTrigger → Option (MetamorphTrigger × MetamorphEffect)
  | [] => none
  | trigger :: rest =>
    if isOrderAllowed mm (getEffectOrderForTrigger trigger) then
      match select trigger with
      | none => scanTriggers mm select rest
      | some effect =>
        if canAffordEffect mm effect then some (trigger, effect)
        else scanTriggers mm select rest
    else scanTriggers mm select rest

/-- `checkTriggers` (system.go:489): filter the available triggers by
their `Check` outcome (`check`, abstracting the predicate's per-tick
result), sort descending by priority, scan; on success admit the effect
and delete the trigger from `availableTriggers`. -/
def checkTriggers (check : MetamorphTrigger → Bool)
    (select : MetamorphTrigger → Option MetamorphEffect) (mm : Manager) : Manager :=
  let potentialTriggers := (mm.availableTriggers.filter check).mergeSort triggerSortLE
  match scanTriggers mm select potentialTriggers with
  | none => mm
  | some (trigger, effect) =>
    let mm' := applyMetamorphEffect effect mm
    { mm' with
      availableTriggers := mm'.availableTriggers.filter (fun t => t.id ≠ trigger.id) }

/-! ### Spatial region evaluator (over `ℝ`, `math.Exp` forces reals) -/

noncomputable section

/-- `AffectedArea` (system.go:52) restricted to the sphere-relevant
fields; the center is folded into the caller-computed `distance`. -/
structure AffectedArea where
  areaType : String
  radius : ℝ
  falloff : String
  falloffMin : ℝ
  falloffMax : ℝ

/-- The normalization step of `isEntityAffectedByEffect` (system.go:1733):
distance mapped into `[FalloffMin, FalloffMax]` and clamped to `[0,1]`. -/
def normalizedDistance (area : AffectedArea) (distance : ℝ) : ℝ :=
  min 1 (max 0 ((distance - area.falloffMin) / (area.falloffMax - area.falloffMin)))

/-- The falloff switch of `isEntityAffectedByEffect` (system.go:1738):
linear `1−n`, quadratic `1−n²`, exponential `e^(−3n)`, default `1−n`. -/
def falloffValue (area : AffectedArea) (distance : ℝ) : ℝ :=
  let n := normalizedDistance area distance
  if area.falloff = "linear" then 1 - n
  else if area.falloff = "quadratic" then 1 - n * n
  else if area.falloff = "exponential" then Real.exp (-3 * n)
  else 1 - n

/-- The sphere branch of `isEntityAffectedByEffect` (system.go:1720),
with `distance` the caller-computed distance from the area's center: the
entity is affected iff it is within the hard radius and, when a falloff
kind applies beyond `FalloffMin`, the computed weight is not below the
0.05 cutoff (the `falloff < 0.05 → return false` exclusion). -/
def sphereAffected (area : AffectedArea) (distance : ℝ) : Prop :=
  distance ≤ area.radius ∧
  ((area.falloff ≠ "none" ∧ area.falloffMin < distance) →
    0.05 ≤ falloffValue area distance)

/-- The Scenario D region: sphere, radius 10, linear falloff over
`[5, 10]`. -/
def scenarioDArea : AffectedArea where
  areaType := "sphere"
  radius := 10
  falloff := "linear"
  falloffMin := 5
  falloffMax := 10

/-- A sphere region with inner 5, outer 15, linear falloff (the
falloff-monotonicity example of §8). -/
def monotoneDemoArea : AffectedArea where
  areaType := "sphere"
  radius := 15
  falloff := "linear"
  falloffMin := 5
  falloffMax := 15

end

/-! ### Effects and scenario constants -/

/-- The order-2, intensity-0.6, permanent instance of Scenario B (an
instance of the `twisted_vegetation` default template, system.go:995). -/
def scenarioBEffect : MetamorphEffect where
  id := "twisted_vegetation_1"
  order := 2
  category := "environment"
  duration := 0
  intensity := 0.6

/-- The cost formula as §4.3 of the spec words it, for comparison with
the source's `getEffectCost`. -/
def specEffectCost (e : MetamorphEffect) : ℚ :=
  let base := (e.order : ℚ) * 10 * e.intensity
  if e.duration = 0 then base * 1.5
  else base * (1 + durationHours e.duration / 10)

/-- The explicit order-derivation rule as §4.5 of the spec words it, for
comparison with the source's `getEffectOrderForTrigger`. -/
def specTriggerOrder (minPhase : ℤ) (priority : ℚ) : ℕ :=
  if 5 ≤ minPhase ∨ (0.95 : ℚ) ≤ priority then 5
  else if 4 ≤ minPhase ∨ (0.85 : ℚ) ≤ priority then 4
  else if 3 ≤ minPhase ∨ (0.75 : ℚ) ≤ priority then 3
  else if 2 ≤ minPhase ∨ (0.6 : ℚ) ≤ priority then 2
  else 1

/-! ### Frame lemmas: phase bookkeeping never touches the ledger -/

/-- Every threshold field after `SetTransformationPhase` or a phase
recheck is either untouched or zeroed. -/
def thresholdEvolves (t t' : OrderThresholds) : Prop :=
  (t'.first = t.first ∨ t'.first = 0)
  ∧ (t'.second = t.second ∨ t'.second = 0)
  ∧ (t'.third = t.third ∨ t'.third = 0)
  ∧ (t'.fourth = t.fourth ∨ t'.fourth = 0)
  ∧ (t'.fifth = t.fifth ∨ t'.fifth = 0)

lemma thresholdEvolves_refl (t : OrderThresholds) : thresholdEvolves t t :=
  ⟨Or.inl rfl, Or.inl rfl, Or.inl rfl, Or.inl rfl, Or.inl rfl⟩

lemma evolve_comp {a b c : ℚ} (h1 : b = a ∨ b = 0) (h2 : c = b ∨ c = 0) :
    c = a ∨ c = 0 := by
  rcases h2 with h2 | h2
  · rcases h1 with h1 | h1
    · exact Or.inl (h2.trans h1)
    · exact Or.inr (h2.trans h1)
  · exact Or.inr h2

lemma thresholdEvolves_trans {a b c : OrderThresholds}
    (h1 : thresholdEvolves a b) (h2 : thresholdEvolves b c) : thresholdEvolves a c :=
  ⟨evolve_comp h1.1 h2.1, evolve_comp h1.2.1 h2.2.1, evolve_comp h1.2.2.1 h2.2.2.1,
   evolve_comp h1.2.2.2.1 h2.2.2.2.1, evolve_comp h1.2.2.2.2 h2.2.2.2.2⟩

lemma SetTransformationPhase_shape (phase : ℤ) (mm : Manager) :
    (SetTransformationPhase phase mm).anomalyBudget = mm.anomalyBudget
    ∧ (SetTransformationPhase phase mm).maxBudget = mm.maxBudget
    ∧ (SetTransformationPhase phase mm).regenerationRate = mm.regenerationRate
    ∧ (SetTransformationPhase phase mm).activeEffects = mm.activeEffects
    ∧ (SetTransformationPhase phase mm).availableTriggers = mm.availableTriggers
    ∧ (SetTransformationPhase phase mm).transformationPhase = phase
    ∧ thresholdEvolves mm.orderThresholds (SetTransformationPhase phase mm).orderThresholds := by
  unfold SetTransformationPhase
  refine ⟨rfl, rfl, rfl, rfl, rfl, rfl, ?_⟩
  dsimp only
  split_ifs <;> simp [thresholdEvolves]

/-- The phase recheck touches only the phase and the thresholds: the
ledger fields, the effect and trigger registries and the world-state
accumulators are untouched, the phase never drops, the thresholds only
ever move to 0. -/
lemma phaseIf_shape (p : ℤ) (mm : Manager) :
    (if p > mm.transformationPhase then SetTransformationPhase p mm else mm).anomalyBudget
        = mm.anomalyBudget
    ∧ (if p > mm.transformationPhase then SetTransformationPhase p mm else mm).maxBudget
        = mm.maxBudget
    ∧ (if p > mm.transformationPhase then SetTransformationPhase p mm else mm).regenerationRate
        = mm.regenerationRate
    ∧ (if p > mm.transformationPhase then SetTransformationPhase p mm else mm).activeEffects
        = mm.activeEffects
    ∧ (if p > mm.transformationPhase then SetTransformationPhase p mm else mm).availableTriggers
        = mm.availableTriggers
    ∧ mm.transformationPhase
        ≤ (if p > mm.transformationPhase then SetTransformationPhase p mm else mm).transformationPhase
    ∧ thresholdEvolves mm.orderThresholds
        (if p > mm.transformationPhase then SetTransformationPhase p mm else mm).orderThresholds := by
  split
  case isTrue h =>
    have hs := SetTransformationPhase_shape p mm
    exact ⟨hs.1, hs.2.1, hs.2.2.1, hs.2.2.2.1, hs.2.2.2.2.1,
      by rw [hs.2.2.2.2.2.1]; exact le_of_lt h, hs.2.2.2.2.2.2⟩
  case isFalse h =>
    exact ⟨rfl, rfl, rfl, rfl, rfl, le_refl _, thresholdEvolves_refl _⟩

lemma checkPhase_shape (mm : Manager) :
    (checkTransformationPhaseProgress mm).anomalyBudget = mm.anomalyBudget
    ∧ (checkTransformationPhaseProgress mm).maxBudget = mm.maxBudget
    ∧ (checkTransformationPhaseProgress mm).regenerationRate = mm.regenerationRate
    ∧ (checkTransformationPhaseProgress mm).activeEffects = mm.activeEffects
    ∧ (checkTransformationPhaseProgress mm).availableTriggers = mm.availableTriggers
    ∧ mm.transformationPhase ≤ (checkTransformationPhaseProgress mm).transformationPhase
    ∧ thresholdEvolves mm.orderThresholds
        (checkTransformationPhaseProgress mm).orderThresholds := by
  unfold checkTransformationPhaseProgress
  dsimp only
  exact phaseIf_shape _ mm

/-- `applyMetamorphEffect` debits exactly the effect's cost and registers
the effect; everything else the ledger invariant reads is framed. -/
lemma applyEffect_shape (effect : MetamorphEffect) (mm : Manager) :
    (applyMetamorphEffect effect mm).anomalyBudget
        = mm.anomalyBudget - getEffectCost effect
    ∧ (applyMetamorphEffect effect mm).maxBudget = mm.maxBudget
    ∧ (applyMetamorphEffect effect mm).regenerationRate = mm.regenerationRate
    ∧ (applyMetamorphEffect effect mm).activeEffects = insertEffect effect mm.activeEffects
    ∧ (applyMetamorphEffect effect mm).availableTriggers = mm.availableTriggers := by
  unfold applyMetamorphEffect
  dsimp only
  have hs := checkPhase_shape
    { mm with
      activeEffects := insertEffect effect mm.activeEffects
      anomalyBudget := mm.anomalyBudget - getEffectCost effect }
  exact ⟨hs.1, hs.2.1, hs.2.2.1, hs.2.2.2.1, hs.2.2.2.2.1⟩

lemma updateAnomalyBudget_at_max {mm : Manager} (d : ℚ) (hd : 0 ≤ d)
    (hrate : 0 ≤ mm.regenerationRate) (hmax : mm.anomalyBudget = mm.maxBudget) :
    updateAnomalyBudget d mm = mm := by
  unfold updateAnomalyBudget
  dsimp only
  have hmin : min mm.maxBudget (mm.anomalyBudget + mm.regenerationRate * (d / 60))
      = mm.anomalyBudget := by
    rw [hmax]
    exact min_eq_left (le_add_of_nonneg_right
      (mul_nonneg hrate (div_nonneg hd (by norm_num))))
  rw [hmin]

lemma foldl_regen_at_max (dts : List ℚ) (mm : Manager) (hdts : ∀ d ∈ dts, 0 ≤ d)
    (hrate : 0 ≤ mm.regenerationRate) (hmax : mm.anomalyBudget = mm.maxBudget) :
    dts.foldl (fun m d => updateAnomalyBudget d m) mm = mm := by
  induction dts with
  | nil => rfl
  | cons d rest ih =>
    rw [List.foldl_cons,
      updateAnomalyBudget_at_max d (hdts d (List.mem_cons_self d rest)) hrate hmax]
    exact ih fun x hx => hdts x (List.mem_cons_of_mem d hx)

/-! ### Claim theorems -/

/-- C4: the budget cost computed by `getEffectCost` equals
`order * 10 * intensity`, multiplied by 1.5 when `Duration == 0` and by
`1 + durationHours/10` otherwise; an order-2, intensity-0.6, permanent
effect costs exactly 18, and admitting it debits the ledger from 100
to 82. -/
theorem effectCost_formula :
    (∀ e : MetamorphEffect, getEffectCost e = specEffectCost e)
    ∧ getEffectCost scenarioBEffect = 18
    ∧ (applyMetamorphEffect scenarioBEffect initialManager).anomalyBudget = 82 := by
  refine ⟨fun e => rfl, by norm_num [getEffectCost, scenarioBEffect], ?_⟩
  rw [(applyEffect_shape scenarioBEffect initialManager).1]
  norm_num [getEffectCost, scenarioBEffect, initialManager]

/-- C5: removing an active effect credits back exactly half its cost,
clamped at `maxBudget`; expiring the Scenario B instance raises the
ledger from 82 to 91, not back to 100. -/
theorem removal_credits_half (mm : Manager) (effectID : String)
    (effect : MetamorphEffect)
    (hfind : mm.activeEffects.find? (fun e => e.id = effectID) = some effect) :
    (removeMetamorphEffect effectID mm).anomalyBudget
        = min mm.maxBudget (mm.anomalyBudget + getEffectCost effect * 0.5)
    ∧ (removeMetamorphEffect effectID mm).anomalyBudget ≤ mm.maxBudget
    ∧ (applyMetamorphEffect scenarioBEffect initialManager).anomalyBudget = 82
    ∧ (removeMetamorphEffect scenarioBEffect.id
        (applyMetamorphEffect scenarioBEffect initialManager)).anomalyBudget = 91 := by
  have hbudget : (removeMetamorphEffect effectID mm).anomalyBudget
      = min mm.maxBudget (mm.anomalyBudget + getEffectCost effect * 0.5) := by
    unfold removeMetamorphEffect
    rw [hfind]
  have happ := applyEffect_shape scenarioBEffect initialManager
  have hact : (applyMetamorphEffect scenarioBEffect initialManager).activeEffects
      = [scenarioBEffect] := by
    rw [happ.2.2.2.1]; rfl
  have hfind2 : (applyMetamorphEffect scenarioBEffect initialManager).activeEffects.find?
      (fun e => e.id = scenarioBEffect.id) = some scenarioBEffect := by
    rw [hact]; simp [List.find?]
  have h82 : (applyMetamorphEffect scenarioBEffect initialManager).anomalyBudget = 82 := by
    rw [happ.1]; norm_num [getEffectCost, scenarioBEffect, initialManager]
  refine ⟨hbudget, hbudget ▸ min_le_left _ _, h82, ?_⟩
  have hrm : (removeMetamorphEffect scenarioBEffect.id
      (applyMetamorphEffect scenarioBEffect initialManager)).anomalyBudget
      = min (applyMetamorphEffect scenarioBEffect initialManager).maxBudget
          ((applyMetamorphEffect scenarioBEffect initialManager).anomalyBudget
            + getEffectCost scenarioBEffect * 0.5) := by
    unfold removeMetamorphEffect
    rw [hfind2]
  rw [hrm, h82, happ.2.1]
  norm_num [getEffectCost, scenarioBEffect, initialManager]

/-- Witness for C5 at the Scenario B/C state. -/
theorem removal_credits_half_witness :
    (removeMetamorphEffect "twisted_vegetation_1"
        (applyMetamorphEffect scenarioBEffect initialManager)).anomalyBudget
      = min (applyMetamorphEffect scenarioBEffect initialManager).maxBudget
          ((applyMetamorphEffect scenarioBEffect initialManager).anomalyBudget
            + getEffectCost scenarioBEffect * 0.5)
    ∧ (removeMetamorphEffect "twisted_vegetation_1"
        (applyMetamorphEffect scenarioBEffect initialManager)).anomalyBudget
      ≤ (applyMetamorphEffect scenarioBEffect initialManager).maxBudget
    ∧ (applyMetamorphEffect scenarioBEffect initialManager).anomalyBudget = 82
    ∧ (removeMetamorphEffect scenarioBEffect.id
        (applyMetamorphEffect scenarioBEffect initialManager)).anomalyBudget = 91 :=
  removal_credits_half (applyMetamorphEffect scenarioBEffect initialManager)
    "twisted_vegetation_1" scenarioBEffect
    (by
      rw [(applyEffect_shape scenarioBEffect initialManager).2.2.2.1]
      simp [insertEffect, initialManager, List.find?, scenarioBEffect])

/-- C9: `updateAnomalyBudget` sets the ledger to
`min(max, available + rate * deltaSeconds/60)`; from `available = max =
100` with rate 0.5, any sequence of non-negative regeneration steps (in
particular 120 s worth) leaves the ledger unchanged at 100. -/
theorem regeneration_formula_clamps (dts : List ℚ) (hdts : ∀ d ∈ dts, 0 ≤ d) :
    (∀ (mm : Manager) (deltaTime : ℚ),
        (updateAnomalyBudget deltaTime mm).anomalyBudget
          = min mm.maxBudget (mm.anomalyBudget + mm.regenerationRate * (deltaTime / 60)))
    ∧ (dts.foldl (fun mm d => updateAnomalyBudget d mm) initialManager).anomalyBudget
        = 100 := by
  refine ⟨fun mm deltaTime => rfl, ?_⟩
  rw [foldl_regen_at_max dts initialManager hdts (by norm_num [initialManager]) rfl]
  rfl

/-- Witness for C9: two 60-second steps (120 simulated seconds). -/
theorem regeneration_formula_clamps_witness :
    (∀ (mm : Manager) (deltaTime : ℚ),
        (updateAnomalyBudget deltaTime mm).anomalyBudget
          = min mm.maxBudget (mm.anomalyBudget + mm.regenerationRate * (deltaTime / 60)))
    ∧ ([(60 : ℚ), 60].foldl (fun mm d => updateAnomalyBudget d mm) initialManager).anomalyBudget
        = 100 :=
  regeneration_formula_clamps [60, 60] (by
    intro d hd
    simp only [List.mem_cons, List.not_mem_nil, or_false] at hd
    rcases hd with h | h <;> rw [h] <;> norm_num)

/-- C8: `getEffectOrderForTrigger` follows the spec's explicit rule,
earlier cases taking precedence (`specTriggerOrder` is that rule worded
as in §4.5; the minimum phase defaults to 1 when the condition is
absent). -/
theorem effectOrder_rule (trigger : MetamorphTrigger) :
    getEffectOrderForTrigger trigger
      = specTriggerOrder (trigger.minPhaseCond.elim 1 ratTrunc) trigger.priority := by
  obtain ⟨tid, pr, mc⟩ := trigger
  cases mc <;> rfl

/-- C10: `AddDiscoveredSymbol` and `AddCompletedRitual` return early on
an already-recorded identifier, leaving the whole manager state
unchanged. -/
theorem add_symbol_ritual_idempotent (mm : Manager) (symbolID ritualID : String)
    (hsym : containsString mm.worldState.discoveredSymbols symbolID = true)
    (hrit : containsString mm.worldState.completedRituals ritualID = true) :
    AddDiscoveredSymbol symbolID mm = mm ∧ AddCompletedRitual ritualID mm = mm := by
  constructor
  · unfold AddDiscoveredSymbol
    rw [if_pos hsym]
  · unfold AddCompletedRitual
    rw [if_pos hrit]

/-- Witness for C10 at a state that has already discovered symbol `"s"`
and completed ritual `"r"`. -/
theorem add_symbol_ritual_idempotent_witness :
    AddDiscoveredSymbol "s"
        { initialManager with
          worldState.discoveredSymbols := ["s"]
          worldState.completedRituals := ["r"] }
      = { initialManager with
          worldState.discoveredSymbols := ["s"]
          worldState.completedRituals := ["r"] }
    ∧ AddCompletedRitual "r"
        { initialManager with
          worldState.discoveredSymbols := ["s"]
          worldState.completedRituals := ["r"] }
      = { initialManager with
          worldState.discoveredSymbols := ["s"]
          worldState.completedRituals := ["r"] } :=
  add_symbol_ritual_idempotent _ "s" "r" (by simp [containsString, initialManager])
    (by simp [containsString, initialManager])

lemma normalizedDistance_nonneg (area : AffectedArea) (d : ℝ) :
    0 ≤ normalizedDistance area d :=
  le_min (by norm_num) (le_max_left 0 _)

lemma normalizedDistance_mono (area : AffectedArea) {d1 d2 : ℝ}
    (hrange : area.falloffMin < area.falloffMax) (h12 : d1 ≤ d2) :
    normalizedDistance area d1 ≤ normalizedDistance area d2 := by
  unfold normalizedDistance
  have hd : (d1 - area.falloffMin) / (area.falloffMax - area.falloffMin)
      ≤ (d2 - area.falloffMin) / (area.falloffMax - area.falloffMin) :=
    (div_le_div_iff_of_pos_right (by linarith)).mpr (by linarith)
  exact min_le_min le_rfl (max_le_max le_rfl hd)

lemma falloffValue_linear (area : AffectedArea) (h : area.falloff = "linear") (d : ℝ) :
    falloffValue area d = 1 - normalizedDistance area d := by
  unfold falloffValue
  rw [h]
  norm_num

lemma falloffValue_quadratic (area : AffectedArea) (h : area.falloff = "quadratic") (d : ℝ) :
    falloffValue area d = 1 - normalizedDistance area d * normalizedDistance area d := by
  unfold falloffValue
  rw [h]
  rw [if_neg (by decide), if_pos rfl]

lemma falloffValue_exponential (area : AffectedArea) (h : area.falloff = "exponential") (d : ℝ) :
    falloffValue area d = Real.exp (-3 * normalizedDistance area d) := by
  unfold falloffValue
  rw [h]
  rw [if_neg (by decide), if_neg (by decide), if_pos rfl]

/-- C6: for a sphere region with a non-`"none"` falloff kind, the
computed falloff weight is non-increasing in the distance for the
linear, quadratic and exponential kinds; and the Scenario D entity at
distance 10 from the sphere with inner 5, outer 10 and linear falloff
gets weight 0 < 0.05, hence is excluded from matching. -/
theorem falloff_monotone_and_cutoff (area : AffectedArea) (d1 d2 : ℝ)
    (hkind : area.falloff = "linear" ∨ area.falloff = "quadratic"
      ∨ area.falloff = "exponential")
    (hrange : area.falloffMin < area.falloffMax)
    (h1 : area.falloffMin ≤ d1) (h12 : d1 < d2) (h2 : d2 ≤ area.falloffMax) :
    falloffValue area d2 ≤ falloffValue area d1
    ∧ ¬ sphereAffected scenarioDArea 10 := by
  constructor
  · have hmono := normalizedDistance_mono area hrange (le_of_lt h12)
    have hn1 := normalizedDistance_nonneg area d1
    have hn2 := normalizedDistance_nonneg area d2
    rcases hkind with hk | hk | hk
    · rw [falloffValue_linear area hk, falloffValue_linear area hk]
      linarith
    · rw [falloffValue_quadratic area hk, falloffValue_quadratic area hk]
      nlinarith
    · rw [falloffValue_exponential area hk, falloffValue_exponential area hk]
      exact Real.exp_le_exp.mpr (by linarith)
  · intro haff
    have hcut := haff.2 ⟨by simp [scenarioDArea], by norm_num [scenarioDArea]⟩
    have hval : falloffValue scenarioDArea 10 = 0 := by
      rw [falloffValue_linear scenarioDArea rfl]
      norm_num [normalizedDistance, scenarioDArea]
    rw [hval] at hcut
    norm_num at hcut

/-- Witness for C6: linear falloff over `[5, 15]` at distances 6 < 8,
plus the Scenario D exclusion. -/
theorem falloff_monotone_and_cutoff_witness :
    falloffValue monotoneDemoArea 8 ≤ falloffValue monotoneDemoArea 6
    ∧ ¬ sphereAffected scenarioDArea 10 :=
  falloff_monotone_and_cutoff monotoneDemoArea 6 8 (Or.inl rfl)
    (by norm_num [monotoneDemoArea]) (by norm_num [monotoneDemoArea])
    (by norm_num) (by norm_num [monotoneDemoArea])

/-! ### Scheduler lemmas (C2, C3) -/

/-- A candidate the scan of `checkTriggers` passes over: its order is
refused by the gate, no template of that order exists, or its
instantiation is unaffordable. -/
def failsScan (mm : Manager) (select : MetamorphTrigger → Option MetamorphEffect)
    (t : MetamorphTrigger) : Prop :=
  isOrderAllowed mm (getEffectOrderForTrigger t) = false
  ∨ select t = none
  ∨ ∃ e, select t = some e ∧ canAffordEffect mm e = false

lemma scanTriggers_cons_fails (mm : Manager)
    (select : MetamorphTrigger → Option MetamorphEffect)
    (t : MetamorphTrigger) (rest : List MetamorphTrigger)
    (h : failsScan mm select t) :
    scanTriggers mm select (t :: rest) = scanTriggers mm select rest := by
  rcases h with h | h | ⟨e, he, haff⟩
  · simp [scanTriggers, h]
  · simp [scanTriggers, h]
  · simp [scanTriggers, he, haff]

lemma scanTriggers_cons_passes (mm : Manager)
    (select : MetamorphTrigger → Option MetamorphEffect)
    (t : MetamorphTrigger) (rest : List MetamorphTrigger) (e : MetamorphEffect)
    (hallow : isOrderAllowed mm (getEffectOrderForTrigger t) = true)
    (hsel : select t = some e) (haff : canAffordEffect mm e = true) :
    scanTriggers mm select (t :: rest) = some (t, e) := by
  simp [scanTriggers, hallow, hsel, haff]

lemma scanTriggers_append_fails (mm : Manager)
    (select : MetamorphTrigger → Option MetamorphEffect)
    (pre rest : List MetamorphTrigger)
    (hpre : ∀ t ∈ pre, failsScan mm select t) :
    scanTriggers mm select (pre ++ rest) = scanTriggers mm select rest := by
  induction pre with
  | nil => rfl
  | cons t pre ih =>
    rw [List.cons_append,
      scanTriggers_cons_fails mm select t _ (hpre t (List.mem_cons_self t pre)),
      ih fun x hx => hpre x (List.mem_cons_of_mem t hx)]

lemma checkTriggers_of_scan_none (check : MetamorphTrigger → Bool)
    (select : MetamorphTrigger → Option MetamorphEffect) (mm : Manager)
    (hscan : scanTriggers mm select
        ((mm.availableTriggers.filter check).mergeSort triggerSortLE) = none) :
    checkTriggers check select mm = mm := by
  unfold checkTriggers
  dsimp only
  rw [hscan]

lemma checkTriggers_of_scan_some (check : MetamorphTrigger → Bool)
    (select : MetamorphTrigger → Option MetamorphEffect) (mm : Manager)
    (t : MetamorphTrigger) (e : MetamorphEffect)
    (hscan : scanTriggers mm select
        ((mm.availableTriggers.filter check).mergeSort triggerSortLE) = some (t, e)) :
    checkTriggers check select mm
      = { applyMetamorphEffect e mm with
          availableTriggers :=
            (applyMetamorphEffect e mm).availableTriggers.filter
              (fun t' => t'.id ≠ t.id) } := by
  unfold checkTriggers
  dsimp only
  rw [hscan]

/-- C2: per tick the scheduler admits at most one new effect; the
candidates whose `Check` passed are sorted by descending priority; the
first one in that order whose derived order the gate admits, whose order
has a template and whose instantiation is affordable is admitted, its
trigger is deleted from the pool, and the candidates after it are never
examined (the scan's result does not depend on them). -/
theorem scheduler_single_admission (check : MetamorphTrigger → Bool)
    (select : MetamorphTrigger → Option MetamorphEffect) (mm : Manager)
    (pre rest : List MetamorphTrigger) (t : MetamorphTrigger) (e : MetamorphEffect)
    (hsorted : (mm.availableTriggers.filter check).mergeSort triggerSortLE
        = pre ++ t :: rest)
    (hpre : ∀ t' ∈ pre, failsScan mm select t')
    (hallow : isOrderAllowed mm (getEffectOrderForTrigger t) = true)
    (hsel : select t = some e) (haff : canAffordEffect mm e = true) :
    ((mm.availableTriggers.filter check).mergeSort triggerSortLE).Pairwise
        (fun a b => b.priority ≤ a.priority)
    ∧ (∀ mm' : Manager,
        (checkTriggers check select mm').activeEffects = mm'.activeEffects
        ∨ ∃ (t' : MetamorphTrigger) (e' : MetamorphEffect),
            scanTriggers mm' select
              ((mm'.availableTriggers.filter check).mergeSort triggerSortLE)
              = some (t', e')
            ∧ (checkTriggers check select mm').activeEffects
              = insertEffect e' mm'.activeEffects)
    ∧ scanTriggers mm select (pre ++ t :: rest) = some (t, e)
    ∧ (∀ rest' : List MetamorphTrigger,
        scanTriggers mm select (pre ++ t :: rest') = some (t, e))
    ∧ checkTriggers check select mm
        = { applyMetamorphEffect e mm with
            availableTriggers :=
              (applyMetamorphEffect e mm).availableTriggers.filter
                (fun t' => t'.id ≠ t.id) } := by
  have hscanAny : ∀ rest' : List MetamorphTrigger,
      scanTriggers mm select (pre ++ t :: rest') = some (t, e) := by
    intro rest'
    rw [scanTriggers_append_fails mm select pre _ hpre,
      scanTriggers_cons_passes mm select t rest' e hallow hsel haff]
  refine ⟨?_, ?_, hscanAny rest, hscanAny, ?_⟩
  · have hs := @List.sorted_mergeSort MetamorphTrigger triggerSortLE
      (fun a b c hab hbc => by
        simp only [triggerSortLE, decide_eq_true_eq] at hab hbc ⊢
        exact le_trans hbc hab)
      (fun a b => by
        simp only [triggerSortLE, Bool.or_eq_true, decide_eq_true_eq]
        exact le_total b.priority a.priority)
      (mm.availableTriggers.filter check)
    exact hs.imp fun h => by
      simpa only [triggerSortLE, decide_eq_true_eq] using h
  · intro mm'
    cases hscan : scanTriggers mm' select
        ((mm'.availableTriggers.filter check).mergeSort triggerSortLE) with
    | none =>
      left
      rw [checkTriggers_of_scan_none check select mm' hscan]
    | some te =>
      obtain ⟨t', e'⟩ := te
      right
      refine ⟨t', e', rfl, ?_⟩
      rw [checkTriggers_of_scan_some check select mm' t' e' hscan]
      exact (applyEffect_shape e' mm').2.2.2.1
  · rw [checkTriggers_of_scan_some check select mm t e (hsorted ▸ hscanAny rest)]

/-- Scenario E's higher trigger: priority 0.95, minimum phase 1 (an
instance of the `symbol_discovery_trigger` template). -/
def triggerHigh : MetamorphTrigger where
  id := "symbol_discovery_trigger_1"
  priority := 0.95
  minPhaseCond := some 1

/-- Scenario E's lower trigger: priority 0.9, minimum phase 1 (an
instance of the `player_death_trigger` template). -/
def triggerLow : MetamorphTrigger where
  id := "player_death_trigger_1"
  priority := 0.9
  minPhaseCond := some 1

/-- An order-5 permanent instance (of `metamorphic_awakening`), cost
75. -/
def effectHigh : MetamorphEffect where
  id := "metamorphic_awakening_1"
  order := 5
  category := "entity"
  duration := 0
  intensity := 1

/-- An order-4, 60-minute instance (of `reality_tear`). -/
def effectLow : MetamorphEffect where
  id := "reality_tear_1"
  order := 4
  category := "reality"
  duration := 3600000000000
  intensity := 0.9

/-- A state late in the progression (every threshold already zeroed)
holding the two Scenario E triggers. -/
def c2Manager : Manager :=
  { initialManager with
    availableTriggers := [triggerLow, triggerHigh]
    orderThresholds := ⟨0, 0, 0, 0, 0⟩ }

/-- Scenario E's per-tick `Check` outcome: both triggers fire. -/
def c2check : MetamorphTrigger → Bool := fun _ => true

/-- Scenario E's template draw. -/
def c2select : MetamorphTrigger → Option MetamorphEffect := fun t =>
  if t.id = "symbol_discovery_trigger_1" then some effectHigh else some effectLow

/-- Witness for C2 at Scenario E: priorities 0.9 and 0.95 both fire, the
sorted scan puts the 0.95 trigger first, it is admitted, and the 0.9
trigger is never examined. -/
theorem scheduler_single_admission_witness :
    ((c2Manager.availableTriggers.filter c2check).mergeSort triggerSortLE).Pairwise
        (fun a b => b.priority ≤ a.priority)
    ∧ (∀ mm' : Manager,
        (checkTriggers c2check c2select mm').activeEffects = mm'.activeEffects
        ∨ ∃ (t' : MetamorphTrigger) (e' : MetamorphEffect),
            scanTriggers mm' c2select
              ((mm'.availableTriggers.filter c2check).mergeSort triggerSortLE)
              = some (t', e')
            ∧ (checkTriggers c2check c2select mm').activeEffects
              = insertEffect e' mm'.activeEffects)
    ∧ scanTriggers c2Manager c2select ([] ++ triggerHigh :: [triggerLow])
        = some (triggerHigh, effectHigh)
    ∧ (∀ rest' : List MetamorphTrigger,
        scanTriggers c2Manager c2select ([] ++ triggerHigh :: rest')
          = some (triggerHigh, effectHigh))
    ∧ checkTriggers c2check c2select c2Manager
        = { applyMetamorphEffect effectHigh c2Manager with
            availableTriggers :=
              (applyMetamorphEffect effectHigh c2Manager).availableTriggers.filter
                (fun t' => t'.id ≠ triggerHigh.id) } :=
  scheduler_single_admission c2check c2select c2Manager [] [triggerLow]
    triggerHigh effectHigh
    (by norm_num [c2Manager, initialManager, c2check, List.mergeSort, List.merge,
      triggerSortLE, triggerHigh, triggerLow])
    (by simp)
    (by
      have horder : getEffectOrderForTrigger triggerHigh = 5 := by
        norm_num [getEffectOrderForTrigger, triggerHigh, ratTrunc]
      rw [horder]
      simp only [isOrderAllowed, OrderThresholds.get, c2Manager]
      norm_num [getTransformationProgress, c2Manager, initialManager])
    (by simp [c2select, triggerHigh])
    (by
      simp only [canAffordEffect, decide_eq_true_eq]
      norm_num [getEffectCost, effectHigh, c2Manager, initialManager])

/-- The C3 trigger: priority 0.5, minimum phase 1, deriving order 1
(admissible from the initial thresholds). -/
def triggerCheap : MetamorphTrigger where
  id := "low_priority_trigger_1"
  priority := 0.5
  minPhaseCond := some 1

/-- An order-1 ten-minute instance (of `visual_distortion`); its cost
61/12 ≈ 5.08 exceeds the budget 5 of `c3Manager`. -/
def effectCheap : MetamorphEffect where
  id := "visual_distortion_1"
  order := 1
  category := "visual"
  duration := 600000000000
  intensity := 0.5

/-- A drained state (budget 5) holding only the C3 trigger. -/
def c3Manager : Manager :=
  { initialManager with
    availableTriggers := [triggerCheap]
    anomalyBudget := 5 }

/-- The C3 per-tick `Check` outcome: the trigger fires. -/
def c3check : MetamorphTrigger → Bool := fun _ => true

/-- The C3 template draw. -/
def c3select : MetamorphTrigger → Option MetamorphEffect := fun _ => some effectCheap

/-- Counterexample to C3: in `c3Manager` the sole (hence best) candidate
is admissible and instantiable but unaffordable; `checkTriggers` then
leaves the whole state unchanged — the trigger is *not* removed from
`availableTriggers`. -/
theorem unaffordable_trigger_retained_cex :
    isOrderAllowed c3Manager (getEffectOrderForTrigger triggerCheap) = true
    ∧ c3select triggerCheap = some effectCheap
    ∧ canAffordEffect c3Manager effectCheap = false
    ∧ (c3Manager.availableTriggers.filter c3check).mergeSort triggerSortLE
        = [triggerCheap]
    ∧ checkTriggers c3check c3select c3Manager = c3Manager
    ∧ triggerCheap ∈ (checkTriggers c3check c3select c3Manager).availableTriggers := by
  have horder : getEffectOrderForTrigger triggerCheap = 1 := by
    norm_num [getEffectOrderForTrigger, triggerCheap, ratTrunc]
  have hallow : isOrderAllowed c3Manager (getEffectOrderForTrigger triggerCheap)
      = true := by
    rw [horder]
    simp only [isOrderAllowed, OrderThresholds.get, c3Manager, initialManager]
    norm_num [getTransformationProgress, c3Manager, initialManager]
  have haff : canAffordEffect c3Manager effectCheap = false := by
    simp only [canAffordEffect, decide_eq_false_iff_not, not_le]
    norm_num [getEffectCost, durationHours, effectCheap, c3Manager, initialManager]
  have hsorted : (c3Manager.availableTriggers.filter c3check).mergeSort triggerSortLE
      = [triggerCheap] := by
    norm_num [c3Manager, initialManager, c3check, List.mergeSort]
  have hscan : scanTriggers c3Manager c3select
      ((c3Manager.availableTriggers.filter c3check).mergeSort triggerSortLE) = none := by
    rw [hsorted,
      scanTriggers_cons_fails c3Manager c3select triggerCheap []
        (Or.inr (Or.inr ⟨effectCheap, rfl, haff⟩))]
    rfl
  have hfix := checkTriggers_of_scan_none c3check c3select c3Manager hscan
  exact ⟨hallow, rfl, haff, hsorted, hfix,
    by rw [hfix]; simp [c3Manager]⟩

/-- C3 amended: a best candidate whose instantiated effect is
unaffordable is *skipped and retained*: the scan moves on to the
remaining sorted candidates, and a trigger is removed from
`availableTriggers` only when it is the one admitted. -/
theorem unaffordable_trigger_skipped (mm : Manager)
    (select : MetamorphTrigger → Option MetamorphEffect)
    (t : MetamorphTrigger) (e : MetamorphEffect) (rest : List MetamorphTrigger)
    (hsel : select t = some e) (hunaff : canAffordEffect mm e = false) :
    scanTriggers mm select (t :: rest) = scanTriggers mm select rest
    ∧ (∀ (check : MetamorphTrigger → Bool) (t' : MetamorphTrigger),
        t' ∈ mm.availableTriggers →
        (∀ (t'' : MetamorphTrigger) (e'' : MetamorphEffect),
          scanTriggers mm select
              ((mm.availableTriggers.filter check).mergeSort triggerSortLE)
            = some (t'', e'') → t'.id ≠ t''.id) →
        t' ∈ (checkTriggers check select mm).availableTriggers) := by
  constructor
  · exact scanTriggers_cons_fails mm select t rest (Or.inr (Or.inr ⟨e, hsel, hunaff⟩))
  · intro check t' hmem hkept
    cases hscan : scanTriggers mm select
        ((mm.availableTriggers.filter check).mergeSort triggerSortLE) with
    | none =>
      rw [checkTriggers_of_scan_none check select mm hscan]
      exact hmem
    | some te =>
      obtain ⟨t'', e''⟩ := te
      rw [checkTriggers_of_scan_some check select mm t'' e'' hscan]
      have hframe := (applyEffect_shape e'' mm).2.2.2.2
      simp only [hframe, List.mem_filter, decide_eq_true_eq]
      exact ⟨hmem, hkept t'' e'' hscan⟩

/-- Witness for the amended C3 at the `c3Manager` scenario. -/
theorem unaffordable_trigger_skipped_witness :
    scanTriggers c3Manager c3select (triggerCheap :: [])
        = scanTriggers c3Manager c3select []
    ∧ (∀ (check : MetamorphTrigger → Bool) (t' : MetamorphTrigger),
        t' ∈ c3Manager.availableTriggers →
        (∀ (t'' : MetamorphTrigger) (e'' : MetamorphEffect),
          scanTriggers c3Manager c3select
              ((c3Manager.availableTriggers.filter check).mergeSort triggerSortLE)
            = some (t'', e'') → t'.id ≠ t''.id) →
        t' ∈ (checkTriggers check c3select c3Manager).availableTriggers) :=
  unaffordable_trigger_skipped c3Manager c3select triggerCheap effectCheap [] rfl
    (by
      simp only [canAffordEffect, decide_eq_false_iff_not, not_le]
      norm_num [getEffectCost, durationHours, effectCheap, c3Manager, initialManager])

/-! ### Engine operation sequences (C1, C7) -/

/-- The operations that mutate engine state during a run: budget
regeneration (from the tick), effect admission (reached only through
`checkTriggers`), effect removal/expiry, rebirth, and the public event
entry points. `SetTransformationPhase` has no caller in the repository
outside `checkTransformationPhaseProgress`, so it appears only inside
those operations. -/
inductive EngineOp where
  | regen (deltaTime : ℚ)
  | admission (effect : MetamorphEffect)
  | remove (effectID : String)
  | death
  | addAction (action : PlayerAction)
  | addSymbol (symbolID : String)
  | addRitual (ritualID : String)
  | setLocalAnomaly (areaID : String) (level : ℚ)
  | setWeather (weather : String)
deriving DecidableEq, Repr

def applyOp (op : EngineOp) (mm : Manager) : Manager :=
  match op with
  | .regen deltaTime => updateAnomalyBudget deltaTime mm
  | .admission effect => applyMetamorphEffect effect mm
  | .remove effectID => removeMetamorphEffect effectID mm
  | .death => RecordPlayerDeath mm
  | .addAction action => AddPlayerAction action mm
  | .addSymbol symbolID => AddDiscoveredSymbol symbolID mm
  | .addRitual ritualID => AddCompletedRitual ritualID mm
  | .setLocalAnomaly areaID level => SetLocalAnomalyLevel areaID level mm
  | .setWeather weather => SetWeather weather mm

/-- The four operations through which the ledger may change. -/
def isBudgetOp : EngineOp → Bool
  | .regen _ | .admission _ | .remove _ | .death => true
  | _ => false

/-- The data-model invariant on an effect instance (§3: intensity in
`[0,1]`, duration 0 or positive); only the lower bounds matter to the
ledger. -/
def wfEffect (e : MetamorphEffect) : Prop := 0 ≤ e.intensity ∧ 0 ≤ e.duration

/-- Validity of an operation against the state it runs in: tick deltas
are non-negative and an admission is reached only through the
`canAffordEffect` guard of `checkTriggers`, with a well-formed instance. -/
def validOp (mm : Manager) : EngineOp → Prop
  | .regen deltaTime => 0 ≤ deltaTime
  | .admission effect => wfEffect effect ∧ canAffordEffect mm effect = true
  | _ => True

/-- A run of valid engine operations. -/
inductive Steps : Manager → List EngineOp → Manager → Prop where
  | nil (mm : Manager) : Steps mm [] mm
  | cons {mm mm' : Manager} {op : EngineOp} {ops : List EngineOp} :
      validOp mm op → Steps (applyOp op mm) ops mm' → Steps mm (op :: ops) mm'

/-- The ledger invariant together with the auxiliary facts that keep it
inductive: the regeneration rate is non-negative and every registered
effect is well-formed. -/
def BudgetInv (mm : Manager) : Prop :=
  0 ≤ mm.anomalyBudget ∧ mm.anomalyBudget ≤ mm.maxBudget
  ∧ 0 ≤ mm.regenerationRate ∧ ∀ e ∈ mm.activeEffects, wfEffect e

lemma getEffectCost_nonneg {e : MetamorphEffect} (he : wfEffect e) :
    0 ≤ getEffectCost e := by
  obtain ⟨hi, hd⟩ := he
  unfold getEffectCost
  dsimp only
  have hbase : (0 : ℚ) ≤ (e.order : ℚ) * 10 * e.intensity :=
    mul_nonneg (mul_nonneg (Nat.cast_nonneg _) (by norm_num)) hi
  split
  · positivity
  · have hhours : (0 : ℚ) ≤ durationHours e.duration :=
      div_nonneg hd (by norm_num [durationHours])
    unfold durationHours at *
    positivity

lemma addSymbol_shape (symbolID : String) (mm : Manager) :
    (AddDiscoveredSymbol symbolID mm).anomalyBudget = mm.anomalyBudget
    ∧ (AddDiscoveredSymbol symbolID mm).maxBudget = mm.maxBudget
    ∧ (AddDiscoveredSymbol symbolID mm).regenerationRate = mm.regenerationRate
    ∧ (AddDiscoveredSymbol symbolID mm).activeEffects = mm.activeEffects
    ∧ mm.transformationPhase ≤ (AddDiscoveredSymbol symbolID mm).transformationPhase
    ∧ thresholdEvolves mm.orderThresholds
        (AddDiscoveredSymbol symbolID mm).orderThresholds := by
  unfold AddDiscoveredSymbol
  split
  · exact ⟨rfl, rfl, rfl, rfl, le_refl _, thresholdEvolves_refl _⟩
  · have hs := checkPhase_shape
      { mm with worldState.discoveredSymbols :=
          mm.worldState.discoveredSymbols ++ [symbolID] }
    exact ⟨hs.1, hs.2.1, hs.2.2.1, hs.2.2.2.1, hs.2.2.2.2.2.1, hs.2.2.2.2.2.2⟩

lemma addRitual_shape (ritualID : String) (mm : Manager) :
    (AddCompletedRitual ritualID mm).anomalyBudget = mm.anomalyBudget
    ∧ (AddCompletedRitual ritualID mm).maxBudget = mm.maxBudget
    ∧ (AddCompletedRitual ritualID mm).regenerationRate = mm.regenerationRate
    ∧ (AddCompletedRitual ritualID mm).activeEffects = mm.activeEffects
    ∧ mm.transformationPhase ≤ (AddCompletedRitual ritualID mm).transformationPhase
    ∧ thresholdEvolves mm.orderThresholds
        (AddCompletedRitual ritualID mm).orderThresholds := by
  unfold AddCompletedRitual
  split
  · exact ⟨rfl, rfl, rfl, rfl, le_refl _, thresholdEvolves_refl _⟩
  · have hs := checkPhase_shape
      { mm with worldState.completedRituals :=
          mm.worldState.completedRituals ++ [ritualID] }
    exact ⟨hs.1, hs.2.1, hs.2.2.1, hs.2.2.2.1, hs.2.2.2.2.2.1, hs.2.2.2.2.2.2⟩

lemma recordDeath_shape (mm : Manager) :
    (RecordPlayerDeath mm).anomalyBudget = mm.maxBudget + 25
    ∧ (RecordPlayerDeath mm).maxBudget = mm.maxBudget + 25
    ∧ (RecordPlayerDeath mm).regenerationRate = mm.regenerationRate
    ∧ (RecordPlayerDeath mm).activeEffects = mm.activeEffects
    ∧ mm.transformationPhase ≤ (RecordPlayerDeath mm).transformationPhase
    ∧ thresholdEvolves mm.orderThresholds (RecordPlayerDeath mm).orderThresholds := by
  unfold RecordPlayerDeath
  dsimp only
  have hs := checkPhase_shape
    { mm with
      worldState.cycles := mm.worldState.cycles + 1
      maxBudget := mm.maxBudget + 25
      anomalyBudget := mm.maxBudget + 25 }
  exact ⟨hs.1, hs.2.1, hs.2.2.1, hs.2.2.2.1, hs.2.2.2.2.2.1, hs.2.2.2.2.2.2⟩

lemma setLocalAnomaly_shape (areaID : String) (level : ℚ) (mm : Manager) :
    (SetLocalAnomalyLevel areaID level mm).anomalyBudget = mm.anomalyBudget
    ∧ (SetLocalAnomalyLevel areaID level mm).maxBudget = mm.maxBudget
    ∧ (SetLocalAnomalyLevel areaID level mm).regenerationRate = mm.regenerationRate
    ∧ (SetLocalAnomalyLevel areaID level mm).activeEffects = mm.activeEffects
    ∧ (SetLocalAnomalyLevel areaID level mm).transformationPhase = mm.transformationPhase
    ∧ (SetLocalAnomalyLevel areaID level mm).orderThresholds = mm.orderThresholds := by
  unfold SetLocalAnomalyLevel updateGlobalAnomalyLevel
  dsimp only
  split <;> exact ⟨rfl, rfl, rfl, rfl, rfl, rfl⟩

lemma removeEffect_shape (effectID : String) (mm : Manager) :
    (removeMetamorphEffect effectID mm).maxBudget = mm.maxBudget
    ∧ (removeMetamorphEffect effectID mm).regenerationRate = mm.regenerationRate
    ∧ (removeMetamorphEffect effectID mm).transformationPhase = mm.transformationPhase
    ∧ (removeMetamorphEffect effectID mm).orderThresholds = mm.orderThresholds
    ∧ (∀ e ∈ (removeMetamorphEffect effectID mm).activeEffects, e ∈ mm.activeEffects)
    ∧ (0 ≤ mm.anomalyBudget → mm.anomalyBudget ≤ mm.maxBudget →
        (∀ e ∈ mm.activeEffects, wfEffect e) →
        0 ≤ (removeMetamorphEffect effectID mm).anomalyBudget
          ∧ (removeMetamorphEffect effectID mm).anomalyBudget ≤ mm.maxBudget) := by
  unfold removeMetamorphEffect
  split
  case h_1 =>
    exact ⟨rfl, rfl, rfl, rfl, fun e he => he, fun h0 hm _ => ⟨h0, hm⟩⟩
  case h_2 effect hfind =>
    refine ⟨rfl, rfl, rfl, rfl, ?_, ?_⟩
    · intro e he
      exact List.mem_of_mem_filter he
    · intro h0 hm hwf
      have hmem : effect ∈ mm.activeEffects := List.mem_of_find?_eq_some hfind
      have hcost : 0 ≤ getEffectCost effect := getEffectCost_nonneg (hwf effect hmem)
      constructor
      · exact le_min (le_trans h0 hm)
          (add_nonneg h0 (mul_nonneg hcost (by norm_num)))
      · exact min_le_left _ _

lemma budgetInv_applyOp {mm : Manager} {op : EngineOp} (hv : validOp mm op)
    (hinv : BudgetInv mm) : BudgetInv (applyOp op mm) := by
  obtain ⟨h0, hm, hr, hwf⟩ := hinv
  cases op with
  | regen deltaTime =>
    have hd : (0 : ℚ) ≤ deltaTime := hv
    refine ⟨?_, min_le_left _ _, hr, hwf⟩
    exact le_min (le_trans h0 hm)
      (add_nonneg h0 (mul_nonneg hr (div_nonneg hd (by norm_num))))
  | admission effect =>
    obtain ⟨hwfe, hafford⟩ := hv
    simp only [applyOp]
    have hshape := applyEffect_shape effect mm
    have hcost_le : getEffectCost effect ≤ mm.anomalyBudget := by
      simpa [canAffordEffect] using hafford
    have hcost0 : 0 ≤ getEffectCost effect := getEffectCost_nonneg hwfe
    refine ⟨?_, ?_, ?_, ?_⟩
    · rw [hshape.1]; linarith
    · rw [hshape.1, hshape.2.1]; linarith
    · rw [hshape.2.2.1]; exact hr
    · rw [hshape.2.2.2.1]
      intro x hx
      rcases List.mem_cons.mp hx with hx | hx
      · exact hx ▸ hwfe
      · exact hwf x (List.mem_of_mem_filter hx)
  | remove effectID =>
    simp only [applyOp]
    have hs := removeEffect_shape effectID mm
    have hb := hs.2.2.2.2.2 h0 hm hwf
    refine ⟨hb.1, ?_, ?_, ?_⟩
    · rw [hs.1]; exact hb.2
    · rw [hs.2.1]; exact hr
    · intro e he
      exact hwf e (hs.2.2.2.2.1 e he)
  | death =>
    simp only [applyOp]
    have hs := recordDeath_shape mm
    have hmax0 : (0 : ℚ) ≤ mm.maxBudget := le_trans h0 hm
    refine ⟨?_, ?_, ?_, ?_⟩
    · rw [hs.1]; linarith
    · rw [hs.1, hs.2.1]
    · rw [hs.2.2.1]; exact hr
    · rw [hs.2.2.2.1]; exact hwf
  | addAction action => exact ⟨h0, hm, hr, hwf⟩
  | addSymbol symbolID =>
    simp only [applyOp]
    have hs := addSymbol_shape symbolID mm
    exact ⟨hs.1 ▸ h0, by rw [hs.1, hs.2.1]; exact hm, hs.2.2.1 ▸ hr,
      by rw [hs.2.2.2.1]; exact hwf⟩
  | addRitual ritualID =>
    simp only [applyOp]
    have hs := addRitual_shape ritualID mm
    exact ⟨hs.1 ▸ h0, by rw [hs.1, hs.2.1]; exact hm, hs.2.2.1 ▸ hr,
      by rw [hs.2.2.2.1]; exact hwf⟩
  | setLocalAnomaly areaID level =>
    simp only [applyOp]
    have hs := setLocalAnomaly_shape areaID level mm
    exact ⟨hs.1 ▸ h0, by rw [hs.1, hs.2.1]; exact hm, hs.2.2.1 ▸ hr,
      by rw [hs.2.2.2.1]; exact hwf⟩
  | setWeather weather => exact ⟨h0, hm, hr, hwf⟩

lemma budgetInv_steps {mm0 mm1 : Manager} {ops : List EngineOp}
    (hs : Steps mm0 ops mm1) : BudgetInv mm0 → BudgetInv mm1 := by
  induction hs with
  | nil => exact id
  | cons hv _ ih => exact fun h0 => ih (budgetInv_applyOp hv h0)

lemma applyOp_budget_frame (mm : Manager) (op : EngineOp)
    (hop : isBudgetOp op = false) :
    (applyOp op mm).anomalyBudget = mm.anomalyBudget := by
  cases op with
  | regen deltaTime => simp [isBudgetOp] at hop
  | admission effect => simp [isBudgetOp] at hop
  | remove effectID => simp [isBudgetOp] at hop
  | death => simp [isBudgetOp] at hop
  | addAction action => rfl
  | addSymbol symbolID => exact (addSymbol_shape symbolID mm).1
  | addRitual ritualID => exact (addRitual_shape ritualID mm).1
  | setLocalAnomaly areaID level => exact (setLocalAnomaly_shape areaID level mm).1
  | setWeather weather => rfl

/-- C1: along every run of valid engine operations (admissions passing
the `canAffordEffect` guard with well-formed instances, non-negative tick
deltas) from a state satisfying the ledger invariant, the invariant
`0 ≤ anomalyBudget ≤ maxBudget` holds at every step (every prefix of a
run is a run, so the final-state bound over all runs bounds every
intermediate state); and the ledger is changed by no operation other
than regenerate/admit/remove/rebirth. -/
theorem budget_conservation (mm0 mm1 : Manager) (ops : List EngineOp)
    (h0 : BudgetInv mm0) (hsteps : Steps mm0 ops mm1) :
    (0 ≤ mm1.anomalyBudget ∧ mm1.anomalyBudget ≤ mm1.maxBudget)
    ∧ ∀ (mm : Manager) (op : EngineOp), isBudgetOp op = false →
        (applyOp op mm).anomalyBudget = mm.anomalyBudget := by
  have hinv := budgetInv_steps hsteps h0
  exact ⟨⟨hinv.1, hinv.2.1⟩, fun mm op hop => applyOp_budget_frame mm op hop⟩

/-- Witness for C1: admit the Scenario B effect, remove it, regenerate a
minute, rebirth, set the weather. -/
theorem budget_conservation_witness :
    (0 ≤ ([EngineOp.admission scenarioBEffect, EngineOp.remove "twisted_vegetation_1",
          EngineOp.regen 60, EngineOp.death, EngineOp.setWeather "storm"].foldl
            (fun mm op => applyOp op mm) initialManager).anomalyBudget
      ∧ ([EngineOp.admission scenarioBEffect, EngineOp.remove "twisted_vegetation_1",
          EngineOp.regen 60, EngineOp.death, EngineOp.setWeather "storm"].foldl
            (fun mm op => applyOp op mm) initialManager).anomalyBudget
        ≤ ([EngineOp.admission scenarioBEffect, EngineOp.remove "twisted_vegetation_1",
            EngineOp.regen 60, EngineOp.death, EngineOp.setWeather "storm"].foldl
              (fun mm op => applyOp op mm) initialManager).maxBudget)
    ∧ ∀ (mm : Manager) (op : EngineOp), isBudgetOp op = false →
        (applyOp op mm).anomalyBudget = mm.anomalyBudget :=
  budget_conservation initialManager _
    [EngineOp.admission scenarioBEffect, EngineOp.remove "twisted_vegetation_1",
     EngineOp.regen 60, EngineOp.death, EngineOp.setWeather "storm"]
    ⟨by norm_num [initialManager], by norm_num [initialManager],
     by norm_num [initialManager], by simp [initialManager]⟩
    (Steps.cons
      ⟨⟨by norm_num [scenarioBEffect], by norm_num [scenarioBEffect]⟩,
        by
          simp only [canAffordEffect, decide_eq_true_eq]
          norm_num [getEffectCost, scenarioBEffect, initialManager]⟩
      (Steps.cons trivial
        (Steps.cons (by simp only [validOp]; norm_num)
          (Steps.cons trivial
            (Steps.cons trivial (Steps.nil _))))))

lemma evolve_zero {a b : ℚ} (h : b = a ∨ b = 0) (ha : a = 0) : b = 0 :=
  h.elim (fun e => e.trans ha) id

lemma thresholdEvolves_get_zero {t t' : OrderThresholds}
    (h : thresholdEvolves t t') (order : ℕ) (hz : t.get order = some 0) :
    t'.get order = some 0 := by
  match order with
  | 0 => simp [OrderThresholds.get] at hz
  | 1 => exact congrArg some (evolve_zero h.1 (Option.some.inj hz))
  | 2 => exact congrArg some (evolve_zero h.2.1 (Option.some.inj hz))
  | 3 => exact congrArg some (evolve_zero h.2.2.1 (Option.some.inj hz))
  | 4 => exact congrArg some (evolve_zero h.2.2.2.1 (Option.some.inj hz))
  | 5 => exact congrArg some (evolve_zero h.2.2.2.2 (Option.some.inj hz))
  | (n + 6) => simp [OrderThresholds.get] at hz

lemma applyOp_phase_shape (op : EngineOp) (mm : Manager) :
    mm.transformationPhase ≤ (applyOp op mm).transformationPhase
    ∧ thresholdEvolves mm.orderThresholds (applyOp op mm).orderThresholds := by
  cases op with
  | regen deltaTime => exact ⟨le_refl _, thresholdEvolves_refl _⟩
  | admission effect =>
    have hs := checkPhase_shape
      { mm with
        activeEffects := insertEffect effect mm.activeEffects
        anomalyBudget := mm.anomalyBudget - getEffectCost effect }
    exact ⟨hs.2.2.2.2.2.1, hs.2.2.2.2.2.2⟩
  | remove effectID =>
    simp only [applyOp]
    have hs := removeEffect_shape effectID mm
    exact ⟨le_of_eq hs.2.2.1.symm, by rw [hs.2.2.2.1]; exact thresholdEvolves_refl _⟩
  | death =>
    have hs := recordDeath_shape mm
    exact ⟨hs.2.2.2.2.1, hs.2.2.2.2.2⟩
  | addAction action => exact ⟨le_refl _, thresholdEvolves_refl _⟩
  | addSymbol symbolID =>
    have hs := addSymbol_shape symbolID mm
    exact ⟨hs.2.2.2.2.1, hs.2.2.2.2.2⟩
  | addRitual ritualID =>
    have hs := addRitual_shape ritualID mm
    exact ⟨hs.2.2.2.2.1, hs.2.2.2.2.2⟩
  | setLocalAnomaly areaID level =>
    simp only [applyOp]
    have hs := setLocalAnomaly_shape areaID level mm
    exact ⟨le_of_eq hs.2.2.2.2.1.symm, by rw [hs.2.2.2.2.2]; exact thresholdEvolves_refl _⟩
  | setWeather weather => exact ⟨le_refl _, thresholdEvolves_refl _⟩

/-- C7: along every run of engine operations the transformation phase is
non-decreasing, and an order's admission threshold, once zeroed, never
becomes non-zero again. -/
theorem phase_monotone_thresholds (mm0 mm1 : Manager) (ops : List EngineOp)
    (hsteps : Steps mm0 ops mm1) :
    mm0.transformationPhase ≤ mm1.transformationPhase
    ∧ ∀ order : ℕ, mm0.orderThresholds.get order = some 0 →
        mm1.orderThresholds.get order = some 0 := by
  induction hsteps with
  | nil => exact ⟨le_refl _, fun _ h => h⟩
  | cons hv hrest ih =>
    rename_i mm mm' op ops'
    have hop := applyOp_phase_shape op mm
    exact ⟨le_trans hop.1 ih.1,
      fun o hz => ih.2 o (thresholdEvolves_get_zero hop.2 o hz)⟩

/-- Witness for C7: discover a symbol, die (rebirth), regenerate. -/
theorem phase_monotone_thresholds_witness :
    initialManager.transformationPhase
      ≤ ([EngineOp.addSymbol "s1", EngineOp.death, EngineOp.regen 30].foldl
          (fun mm op => applyOp op mm) initialManager).transformationPhase
    ∧ ∀ order : ℕ, initialManager.orderThresholds.get order = some 0 →
        ([EngineOp.addSymbol "s1", EngineOp.death, EngineOp.regen 30].foldl
          (fun mm op => applyOp op mm) initialManager).orderThresholds.get order
          = some 0 :=
  phase_monotone_thresholds initialManager _
    [EngineOp.addSymbol "s1", EngineOp.death, EngineOp.regen 30]
    (Steps.cons trivial
      (Steps.cons trivial
        (Steps.cons (by simp only [validOp]; norm_num) (Steps.nil _))))

end EchoTaiga
